import Mathlib

/-!
Shallow embedding of the PulseView startup/shutdown orchestrator
(`src/main.cpp`).

The program is `main`: it parses the argument vector with `getopt_long`,
then brings up subsystems in a fixed order (global settings, logging,
acquisition context, optional crash-dump handlers, optional decoder
engine, device manager, main window, session setup, optional signal
handler), runs the Qt event loop and tears the decoder engine down.

Modelling choices:
* `getopt_long` is libc code, an external collaborator; we model its
  output stream: a list of `Tok` values, one per recognized option
  occurrence (with its argument string) or positional argument.  GNU
  permutation means positionals are skipped by the option loop and
  `argc - optind` counts them afterwards, with the (single) positional
  sitting at `argv[argc-1]`; `positionals` and `applyPositional` model
  that.  An unrecognized option or a missing option argument makes
  `getopt` return `?`, modelled by `Tok.badOpt`.
* Build-time preprocessor conditionals (`ENABLE_DECODE`,
  `ENABLE_STACKTRACE`, `ENABLE_SIGNALS`) become the `Build` record.
* Behaviour of external collaborators (does `srd_init` succeed, does a
  C++ exception arise in the guarded region, what `a.exec()` returns,
  does `SignalHandler::prepare_signals` succeed) is an `Env` record.
* The observable behaviour of a run is a `Run`: the ordered trace of
  collaborator calls (`Event`s) plus the process `Outcome`.  The local
  `shared_ptr<sigrok::Context> context` is `Option Unit` in the state:
  `none` is the null handle it is default-constructed to; every
  `Event.setContextLogLevel` records whether the handle was non-null
  at call time.
* `atoi` is modelled faithfully for the claims at hand: skip leading
  whitespace, optional sign, longest digit run, `0` when no digits.
-/

namespace PulseView

/-- Build-time feature flags: the preprocessor conditionals of
`main.cpp` (`ENABLE_DECODE`, `ENABLE_STACKTRACE`, `ENABLE_SIGNALS`). -/
structure Build where
  decode : Bool
  stacktrace : Bool
  enableSignals : Bool
deriving DecidableEq

/-- Where a C++ exception can arise inside the guarded region of `main`
(device-manager construction, main-window construction, or `a.exec()`). -/
inductive ExcPoint
  | devMgr
  | mainWindow
  | eventLoop
deriving DecidableEq

/-- Behaviour of the external collaborators during one run. -/
structure Env where
  srdInitOk : Bool
  exc : Option ExcPoint
  signalPrepareOk : Bool
  eventLoopRet : Int
deriving DecidableEq

/-- The stream of parsed items `getopt_long` hands to the option loop,
one constructor per `case` of the `switch` in `main.cpp` (`badOpt` is
`getopt` returning `?` for an unrecognized option or a missing option
argument, which falls into the same `case 'h': case '?':` branch). -/
inductive Tok
  | help
  | badOpt
  | version
  | loglevel (s : String)
  | driver (s : String)
  | noScan
  | inputFile (s : String)
  | inputFormat (s : String)
  | clean
  | logToStdout
  | positional (s : String)
deriving DecidableEq

/-- Observable calls `main` makes on its collaborators, in order. -/
inductive Event
  | printUsage
  | printVersion
  | warnInvalidLogLevel
  | setContextLogLevel (lv : Int) (ctxValid : Bool)
  | setDecoderLogLevel (lv : Int)
  | debugSettingsPeek
  | printErr (msg : String)
  | settingsCreate
  | settingsSetDefaults
  | loggingInit
  | contextCreate
  | installCrashHandlers
  | logDecodeInitFailed
  | srdLoadAll
  | deviceManagerCreate
  | mainWindowCreate
  | mainWindowShow
  | restoreSessions
  | addSessionWithFile (file fmt : String)
  | addDefaultSession
  | signalHandlerInstall
  | warnSignalHandler
  | eventLoopRun
  | logException
  | srdExit
deriving DecidableEq

/-- How the process ends: a `return` from `main` with a code, or a C++
exception escaping `main` (possible only in `ENABLE_STACKTRACE` builds,
where the `try`/`catch` is compiled out). -/
inductive Outcome
  | exited (code : Int)
  | uncaught
deriving DecidableEq

/-- The observable behaviour of one run of `main`. -/
structure Run where
  trace : List Event
  outcome : Outcome
deriving DecidableEq

/-- The mutable locals of `main` that later steps read (`open_file`,
`open_file_format`, `driver`, `restore_sessions`, `do_scan`,
`do_logging`, and the `context` shared pointer, `none` while null). -/
structure PState where
  open_file : String
  open_file_format : String
  driver : String
  restore_sessions : Bool
  do_scan : Bool
  do_logging : Bool
  context : Option Unit
deriving DecidableEq

/-- Initial values of `main`'s locals (lines 101-106 of `main.cpp`):
empty strings, `restore_sessions = do_scan = do_logging = true`, and a
default-constructed (null) context pointer. -/
def initPState : PState :=
  ⟨"", "", "", true, true, true, none⟩

/-- The whitespace characters `atoi` (via `isspace`) skips. -/
def isSpaceC (c : Char) : Bool :=
  c = ' ' || c = '\t' || c = '\n' || c = '\x0b' || c = '\x0c' || c = '\r'

/-- Drop the leading whitespace of a character list. -/
def skipSpaces : List Char → List Char
  | [] => []
  | c :: cs => if isSpaceC c then skipSpaces cs else c :: cs

/-- Accumulate the value of the longest leading digit run. -/
def parseDigits : List Char → Int → Int
  | [], acc => acc
  | c :: cs, acc =>
      if c.isDigit then parseDigits cs (acc * 10 + ((c.toNat : Int) - 48))
      else acc

/-- Value of a character list after whitespace skipping: optional sign,
then the longest digit run (empty run gives 0). -/
def atoiSigned : List Char → Int
  | [] => 0
  | c :: cs =>
      if c = '-' then - parseDigits cs 0
      else if c = '+' then parseDigits cs 0
      else parseDigits (c :: cs) 0

/-- C `atoi`, as used on `optarg` in the `-l` case of `main.cpp`. -/
def atoi (s : String) : Int :=
  atoiSigned (skipSpaces s.toList)

/-- True when the first character (if any) is not a digit. -/
def noLeadingDigit : List Char → Bool
  | [] => true
  | c :: _ => !c.isDigit

/-- A string with no numeric content for `atoi`: after whitespace and an
optional sign there is no digit, so `atoi` returns 0. -/
def nonNumericArg (s : String) : Bool :=
  match skipSpaces s.toList with
  | [] => true
  | c :: cs =>
      if c = '-' then noLeadingDigit cs
      else if c = '+' then noLeadingDigit cs
      else !c.isDigit

/-- Result of handling one parsed item: `halt code evs` models a
`return code` out of `main` from inside the option loop, `next st evs`
models falling through to the next `getopt` call; `evs` are the events
emitted while handling the item. -/
inductive StepRes
  | halt (code : Int) (evs : List Event)
  | next (st : PState) (evs : List Event)
deriving DecidableEq

/-- One iteration of the `switch` in the option loop of `main.cpp`.
The `-l` case runs `atoi(optarg)`, warns and keeps going on an
out-of-range value, and otherwise calls `context->set_log_level`
(recording whether the context pointer is non-null at that moment),
then `srd_log_loglevel_set` in decoder builds, then peeks at the
settings when the level is at least 5.  Positionals are skipped by
`getopt` permutation. -/
def parseStep (b : Build) (st : PState) : Tok → StepRes
  | .help => .halt 0 [.printUsage]
  | .badOpt => .halt 0 [.printUsage]
  | .version => .halt 0 [.printVersion]
  | .loglevel s =>
      if atoi s < 0 ∨ 5 < atoi s then .next st [.warnInvalidLogLevel]
      else
        .next st ([.setContextLogLevel (atoi s) st.context.isSome]
          ++ (if b.decode then [.setDecoderLogLevel (atoi s)] else [])
          ++ (if 5 ≤ atoi s then [.debugSettingsPeek] else []))
  | .driver s => .next { st with driver := s } []
  | .noScan => .next { st with do_scan := false } []
  | .inputFile s => .next { st with open_file := s } []
  | .inputFormat s => .next { st with open_file_format := s } []
  | .clean => .next { st with restore_sessions := false } []
  | .logToStdout => .next { st with do_logging := false } []
  | .positional _ => .next st []

/-- Result of the whole option loop: either `main` returned during
parsing, or parsing finished with a final state; in both cases with the
accumulated event list. -/
inductive ParseOut
  | halt (code : Int) (evs : List Event)
  | next (st : PState) (evs : List Event)
deriving DecidableEq

/-- The `while (true)` option loop of `main.cpp`, folded over the
`getopt_long` item stream. -/
def parseLoop (b : Build) : List Tok → PState → ParseOut
  | [], st => .next st []
  | t :: rest, st =>
      match parseStep b st t with
      | .halt code evs => .halt code evs
      | .next st' evs =>
          match parseLoop b rest st' with
          | .halt code evs2 => .halt code (evs ++ evs2)
          | .next st2 evs2 => .next st2 (evs ++ evs2)

/-- Events of a `ParseOut`. -/
def outEvents : ParseOut → List Event
  | .halt _ evs => evs
  | .next _ evs => evs

/-- The positional (non-option) arguments, in order; `getopt`
permutation moves them behind the options, so after the loop
`argc - optind` is their count and `argv[argc-1]` is the last one. -/
def positionals : List Tok → List String
  | [] => []
  | .positional s :: rest => s :: positionals rest
  | _ :: rest => positionals rest

/-- Lines 198-199 of `main.cpp`: when exactly one positional argument
remains, it overwrites `open_file` (so it wins over any `-i` value). -/
def applyPositional (ps : List String) (st : PState) : PState :=
  match ps with
  | [p] => { st with open_file := p }
  | _ => st

/-- The diagnostic printed for more than one positional argument. -/
def onlyOneFileMsg : String := "Only one file can be opened.\n"

/-- Events of the if/else chain at lines 249-255: `restore_sessions()`
whenever the flag is set, then either the explicit file or the default
session. -/
def sessionEvents (st : PState) : List Event :=
  (if st.restore_sessions then [.restoreSessions] else [])
    ++ (if st.open_file = "" then [.addDefaultSession]
        else [.addSessionWithFile st.open_file st.open_file_format])

/-- Events of the `ENABLE_SIGNALS` block (lines 257-266). -/
def signalEvents (b : Build) (e : Env) : List Event :=
  if b.enableSignals then
    (if e.signalPrepareOk then [.signalHandlerInstall] else [.warnSignalHandler])
  else []

/-- The region guarded by `try` in non-stacktrace builds (lines
242-269): device-manager construction, main-window construction and
`show()`, session setup, signal-handler setup, and `a.exec()`.  Returns
the events that happened before a possible exception and `some ret`
when `a.exec()` completed (`none` when an exception was thrown). -/
def bodyRun (b : Build) (e : Env) (st : PState) : List Event × Option Int :=
  if e.exc = some .devMgr then ([], none)
  else if e.exc = some .mainWindow then ([.deviceManagerCreate], none)
  else if e.exc = some .eventLoop then
    ([.deviceManagerCreate, .mainWindowCreate, .mainWindowShow]
      ++ sessionEvents st ++ signalEvents b e ++ [.eventLoopRun], none)
  else
    ([.deviceManagerCreate, .mainWindowCreate, .mainWindowShow]
      ++ sessionEvents st ++ signalEvents b e ++ [.eventLoopRun],
      some e.eventLoopRet)

/-- Lines 238-284 after decoder setup: run the guarded region; on an
exception, stacktrace builds have no `catch`, so it escapes `main`
(`uncaught`), while other builds log it and fall through; in decoder
builds `srd_exit()` then runs; `ret` (0 unless `a.exec()` completed) is
returned. -/
def mainBody (b : Build) (e : Env) (st : PState) (evs : List Event) : Run :=
  if (bodyRun b e st).2 = none then
    if b.stacktrace then ⟨evs ++ (bodyRun b e st).1, .uncaught⟩
    else
      ⟨evs ++ (bodyRun b e st).1 ++ [.logException]
        ++ (if b.decode then [.srdExit] else []), .exited 0⟩
  else
    ⟨evs ++ (bodyRun b e st).1 ++ (if b.decode then [.srdExit] else []),
      .exited ((bodyRun b e st).2.getD 0)⟩

/-- Lines 227-236: in decoder builds, `srd_init` failure is logged and
`break` leaves the `do { } while (false)` block, skipping everything
else (including `srd_exit`) and returning the unchanged `ret = 0`;
on success the decoder catalog is loaded and the run continues. -/
def decodeAndBody (b : Build) (e : Env) (st : PState) (evs : List Event) : Run :=
  if b.decode = true ∧ e.srdInitOk = false then
    ⟨evs ++ [.logDecodeInitFailed], .exited 0⟩
  else
    mainBody b e st (evs ++ (if b.decode then [.srdLoadAll] else []))

/-- Events of lines 201-220: global settings with default filling,
logging when enabled, creation of the sigrok context, and crash-dump
handler installation in stacktrace builds. -/
def stageA (b : Build) (st : PState) : List Event :=
  [.settingsCreate, .settingsSetDefaults]
    ++ (if st.do_logging then [.loggingInit] else [])
    ++ [.contextCreate]
    ++ (if b.stacktrace then [.installCrashHandlers] else [])

/-- Lines 201-220: global settings with default filling, logging when
enabled, creation of the sigrok context (the pointer becomes non-null
here), and crash-dump handler installation in stacktrace builds. -/
def startSubsystems (b : Build) (e : Env) (st : PState) (evs : List Event) : Run :=
  decodeAndBody b e { st with context := some () } (evs ++ stageA b st)

/-- Lines 193-199 and onwards: more than one positional is a fatal
usage error (exit 1 after the diagnostic); exactly one positional
overwrites `open_file`; then the subsystems come up. -/
def afterParse (b : Build) (e : Env) (toks : List Tok) (st : PState)
    (evs : List Event) : Run :=
  if 1 < (positionals toks).length then
    ⟨evs ++ [.printErr onlyOneFileMsg], .exited 1⟩
  else
    startSubsystems b e (applyPositional (positionals toks) st) evs

/-- The whole of `main`, over the build flags, the collaborator
behaviour and the `getopt` item stream. -/
def mainRun (b : Build) (e : Env) (toks : List Tok) : Run :=
  match parseLoop b toks initPState with
  | .halt code evs => ⟨evs, .exited code⟩
  | .next st evs => afterParse b e toks st evs

/-- Events of a `StepRes`. -/
def stepEvents : StepRes → List Event
  | .halt _ evs => evs
  | .next _ evs => evs

/-- Events emitted inside the option loop (as opposed to the post-parse
stages of `main`). -/
def isParseEvent : Event → Bool
  | .printUsage => true
  | .printVersion => true
  | .warnInvalidLogLevel => true
  | .setContextLogLevel _ _ => true
  | .setDecoderLogLevel _ => true
  | .debugSettingsPeek => true
  | _ => false

/-- Tokens whose `switch` case executes `return` (help/unknown option
and version). -/
def isTerminalTok : Tok → Bool
  | .help => true
  | .badOpt => true
  | .version => true
  | _ => false

/-- Number of occurrences of an event in a trace. -/
def countEvent (ev : Event) : List Event → Nat
  | [] => 0
  | x :: rest => (if x = ev then 1 else 0) + countEvent ev rest

/-- POSIX signal numbers used by the crash-dump handler. -/
def SIGABRT : Int := 6

/-- POSIX signal number of the segmentation fault. -/
def SIGSEGV : Int := 11

/-- Actions a fault handler can take, in order. -/
inductive HandlerStep
  | restoreDefault (signum : Int)
  | dumpTo (path : String)
  | raiseSignal (signum : Int)
deriving DecidableEq

/-- Line 215: the stack-trace dump path inside the temp directory. -/
def stacktraceFilename (tempPath : String) : String :=
  tempPath ++ "/pv_stacktrace.dmp"

/-- Lines 70-75: the crash-dump fault handler.  It restores the default
handler for the triggering signal, dumps the stack trace to the
resolved path, and then raises `SIGABRT` (unconditionally, whatever
`signum` triggered it). -/
def signal_handler (tempPath : String) (signum : Int) : List HandlerStep :=
  [.restoreDefault signum,
   .dumpTo (stacktraceFilename tempPath),
   .raiseSignal SIGABRT]

/-- A build with every optional feature on except stacktrace (so the
top-level `try`/`catch` exists), used by concrete witnesses. -/
def pvBuild : Build := ⟨true, false, true⟩

/-- A fully successful collaborator environment with exit code 0. -/
def pvEnv : Env := ⟨true, none, true, 0⟩

/-! ## General lemmas about the embedding -/

theorem countEvent_append (ev : Event) (l1 l2 : List Event) :
    countEvent ev (l1 ++ l2) = countEvent ev l1 + countEvent ev l2 := by
  induction l1 with
  | nil => simp [countEvent]
  | cons x rest ih => simp [countEvent, ih]; omega

theorem countEvent_eq_zero (ev : Event) (l : List Event) (h : ev ∉ l) :
    countEvent ev l = 0 := by
  induction l with
  | nil => rfl
  | cons x rest ih =>
      simp only [List.mem_cons, not_or] at h
      simp [countEvent, ih h.2, Ne.symm h.1]

theorem countEvent_singleton (ev : Event) : countEvent ev [ev] = 1 := by
  simp [countEvent]

/-- Every event the option loop emits while handling one item is a
parse-level event. -/
theorem parseStep_events_parse (b : Build) (st : PState) (t : Tok) :
    ∀ ev ∈ stepEvents (parseStep b st t), isParseEvent ev = true := by
  intro ev hev
  cases t <;> simp only [parseStep] at hev <;> (try split_ifs at hev) <;>
    simp only [stepEvents] at hev <;> simp at hev <;>
    (try casesm* _ ∨ _) <;> subst_vars <;> rfl

/-- The option-loop step never changes the context pointer. -/
theorem parseStep_context (b : Build) (st : PState) (t : Tok)
    (st' : PState) (evs : List Event)
    (h : parseStep b st t = .next st' evs) : st'.context = st.context := by
  cases t with
  | help => exact absurd h (by simp [parseStep])
  | badOpt => exact absurd h (by simp [parseStep])
  | version => exact absurd h (by simp [parseStep])
  | loglevel s =>
      simp only [parseStep] at h
      split_ifs at h <;> (injection h with h1 h2; rw [← h1])
  | driver s => injection h with h1 h2; rw [← h1]
  | noScan => injection h with h1 h2; rw [← h1]
  | inputFile s => injection h with h1 h2; rw [← h1]
  | inputFormat s => injection h with h1 h2; rw [← h1]
  | clean => injection h with h1 h2; rw [← h1]
  | logToStdout => injection h with h1 h2; rw [← h1]
  | positional s => injection h with h1 h2; rw [← h1]

/-- Every event the whole option loop emits is a parse-level event. -/
theorem parseLoop_events_parse (b : Build) (toks : List Tok) (st : PState) :
    ∀ ev ∈ outEvents (parseLoop b toks st), isParseEvent ev = true := by
  induction toks generalizing st with
  | nil => simp [parseLoop, outEvents]
  | cons t rest ih =>
      intro ev hev
      simp only [parseLoop] at hev
      split at hev
      case _ code evs heq =>
          simp only [outEvents] at hev
          exact parseStep_events_parse b st t ev (by rw [heq]; simpa [stepEvents] using hev)
      case _ st' evs heq =>
          split at hev <;>
          rename_i heq2 <;>
          simp only [outEvents, List.mem_append] at hev <;>
          rcases hev with hev | hev
          · exact parseStep_events_parse b st t ev (by rw [heq]; simpa [stepEvents] using hev)
          · have := ih st' ev
            rw [heq2] at this
            exact this (by simpa [outEvents] using hev)
          · exact parseStep_events_parse b st t ev (by rw [heq]; simpa [stepEvents] using hev)
          · have := ih st' ev
            rw [heq2] at this
            exact this (by simpa [outEvents] using hev)

/-- Every `setContextLogLevel` event a single option-loop step emits
records exactly the nullness of the context pointer at that moment. -/
theorem parseStep_setCtx (b : Build) (st : PState) (t : Tok) (lv : Int) (v : Bool)
    (hev : Event.setContextLogLevel lv v ∈ stepEvents (parseStep b st t)) :
    v = st.context.isSome := by
  cases t <;> simp only [parseStep] at hev <;> (try split_ifs at hev) <;>
    simp only [stepEvents] at hev <;> simp at hev <;> simp_all

/-- During the whole option loop the context pointer is still null, so
every emitted `setContextLogLevel` event records an invalid handle. -/
theorem parseLoop_setCtx_false (b : Build) (toks : List Tok) (st : PState)
    (hc : st.context = none) (lv : Int) (v : Bool)
    (hev : Event.setContextLogLevel lv v ∈ outEvents (parseLoop b toks st)) :
    v = false := by
  induction toks generalizing st with
  | nil => simp [parseLoop, outEvents] at hev
  | cons t rest ih =>
      simp only [parseLoop] at hev
      split at hev
      case _ code evs heq =>
          simp only [outEvents] at hev
          have h := parseStep_setCtx b st t lv v (by rw [heq]; simpa [stepEvents] using hev)
          rw [hc] at h
          simpa using h
      case _ st' evs heq =>
          split at hev <;> rename_i heq2 <;>
            simp only [outEvents, List.mem_append] at hev <;>
            rcases hev with hev | hev
          · have h := parseStep_setCtx b st t lv v (by rw [heq]; simpa [stepEvents] using hev)
            rw [hc] at h
            simpa using h
          · have hctx := parseStep_context b st t st' evs heq
            have := ih st' (by rw [hctx, hc])
            rw [heq2] at this
            exact this (by simpa [outEvents] using hev)
          · have h := parseStep_setCtx b st t lv v (by rw [heq]; simpa [stepEvents] using hev)
            rw [hc] at h
            simpa using h
          · have hctx := parseStep_context b st t st' evs heq
            have := ih st' (by rw [hctx, hc])
            rw [heq2] at this
            exact this (by simpa [outEvents] using hev)

/-- A non-terminal item never makes the option loop return. -/
theorem parseStep_next_of_not_terminal (b : Build) (st : PState) (t : Tok)
    (ht : isTerminalTok t = false) :
    ∃ st' evs, parseStep b st t = .next st' evs := by
  cases t with
  | help => simp [isTerminalTok] at ht
  | badOpt => simp [isTerminalTok] at ht
  | version => simp [isTerminalTok] at ht
  | loglevel s =>
      by_cases h : atoi s < 0 ∨ 5 < atoi s
      · exact ⟨st, [.warnInvalidLogLevel], by simp [parseStep, h]⟩
      · exact ⟨st, [Event.setContextLogLevel (atoi s) st.context.isSome]
            ++ (if b.decode then [Event.setDecoderLogLevel (atoi s)] else [])
            ++ (if 5 ≤ atoi s then [Event.debugSettingsPeek] else []),
          by simp [parseStep, h]⟩
  | driver s => exact ⟨_, _, rfl⟩
  | noScan => exact ⟨_, _, rfl⟩
  | inputFile s => exact ⟨_, _, rfl⟩
  | inputFormat s => exact ⟨_, _, rfl⟩
  | clean => exact ⟨_, _, rfl⟩
  | logToStdout => exact ⟨_, _, rfl⟩
  | positional s => exact ⟨_, _, rfl⟩

/-- Without help/version/unrecognized options the option loop runs to
completion. -/
theorem parseLoop_next_of_no_terminal (b : Build) (toks : List Tok) (st : PState)
    (h : ∀ t ∈ toks, isTerminalTok t = false) :
    ∃ st' evs, parseLoop b toks st = .next st' evs := by
  induction toks generalizing st with
  | nil => exact ⟨st, [], rfl⟩
  | cons t rest ih =>
      obtain ⟨st1, evs1, hs⟩ := parseStep_next_of_not_terminal b st t (h t (by simp))
      obtain ⟨st2, evs2, hl⟩ := ih st1 (fun x hx => h x (by simp [hx]))
      exact ⟨st2, evs1 ++ evs2, by simp [parseLoop, hs, hl]⟩

/-- With a help/version/unrecognized option somewhere in the stream,
the option loop returns 0 after printing usage or version. -/
theorem parseLoop_halt_of_terminal (b : Build) (toks : List Tok) (st : PState)
    (h : ∃ t ∈ toks, isTerminalTok t = true) :
    ∃ evs, parseLoop b toks st = .halt 0 evs ∧
      (Event.printUsage ∈ evs ∨ Event.printVersion ∈ evs) := by
  induction toks generalizing st with
  | nil => simp at h
  | cons t rest ih =>
      by_cases ht : isTerminalTok t = true
      · cases t with
        | help => exact ⟨[.printUsage], rfl, Or.inl (by simp)⟩
        | badOpt => exact ⟨[.printUsage], rfl, Or.inl (by simp)⟩
        | version => exact ⟨[.printVersion], rfl, Or.inr (by simp)⟩
        | loglevel s => simp [isTerminalTok] at ht
        | driver s => simp [isTerminalTok] at ht
        | noScan => simp [isTerminalTok] at ht
        | inputFile s => simp [isTerminalTok] at ht
        | inputFormat s => simp [isTerminalTok] at ht
        | clean => simp [isTerminalTok] at ht
        | logToStdout => simp [isTerminalTok] at ht
        | positional s => simp [isTerminalTok] at ht
      · obtain ⟨st1, evs1, hs⟩ :=
          parseStep_next_of_not_terminal b st t (by simpa using ht)
        have h' : ∃ x ∈ rest, isTerminalTok x = true := by
          obtain ⟨x, hx, hxt⟩ := h
          rcases List.mem_cons.mp hx with rfl | hx'
          · exact absurd hxt ht
          · exact ⟨x, hx', hxt⟩
        obtain ⟨evs2, hl, hmem⟩ := ih st1 h'
        refine ⟨evs1 ++ evs2, by simp [parseLoop, hs, hl], ?_⟩
        rcases hmem with hm | hm
        · exact Or.inl (List.mem_append_right _ hm)
        · exact Or.inr (List.mem_append_right _ hm)

/-- With no exception injected, the guarded region runs to completion
and its event list is explicit. -/
theorem bodyRun_exc_none (b : Build) (e : Env) (st : PState) (h : e.exc = none) :
    bodyRun b e st =
      ([.deviceManagerCreate, .mainWindowCreate, .mainWindowShow]
        ++ sessionEvents st ++ signalEvents b e ++ [.eventLoopRun],
        some e.eventLoopRet) := by
  simp [bodyRun, h]

/-- No event of the guarded region is a parse-level event. -/
theorem bodyRun_events_nonparse (b : Build) (e : Env) (st : PState) :
    ∀ ev ∈ (bodyRun b e st).1, isParseEvent ev = false := by
  intro ev hev
  simp only [bodyRun, sessionEvents, signalEvents] at hev
  split_ifs at hev <;> simp at hev <;>
    (try casesm* _ ∨ _) <;> subst_vars <;> rfl

/-- No event of the settings/logging/context/crash-handler stage is a
parse-level event. -/
theorem stageA_events_nonparse (b : Build) (st : PState) :
    ∀ ev ∈ stageA b st, isParseEvent ev = false := by
  intro ev hev
  simp only [stageA] at hev
  split_ifs at hev <;> simp at hev <;>
    (try casesm* _ ∨ _) <;> subst_vars <;> rfl

/-- Every trace event of `mainBody` is either inherited from the prior
events or a non-parse event. -/
theorem mainBody_mem (b : Build) (e : Env) (st : PState) (evs : List Event) :
    ∀ ev ∈ (mainBody b e st evs).trace, ev ∈ evs ∨ isParseEvent ev = false := by
  intro ev hev
  simp only [mainBody] at hev
  split_ifs at hev <;> simp at hev <;> (try casesm* _ ∨ _) <;>
    first
      | exact Or.inl (by assumption)
      | exact Or.inr (bodyRun_events_nonparse b e st ev (by assumption))
      | (subst_vars; exact Or.inr rfl)

/-- Every trace event of `decodeAndBody` is either inherited or a
non-parse event. -/
theorem decodeAndBody_mem (b : Build) (e : Env) (st : PState) (evs : List Event) :
    ∀ ev ∈ (decodeAndBody b e st evs).trace, ev ∈ evs ∨ isParseEvent ev = false := by
  intro ev hev
  simp only [decodeAndBody] at hev
  split_ifs at hev with h1 h2
  · simp at hev
    rcases hev with hev | hev
    · exact Or.inl hev
    · subst hev; exact Or.inr rfl
  · rcases mainBody_mem b e st _ ev hev with hev' | hev'
    · rcases List.mem_append.mp hev' with hev'' | hev''
      · exact Or.inl hev''
      · simp at hev''; subst hev''; exact Or.inr rfl
    · exact Or.inr hev'
  · rcases mainBody_mem b e st _ ev hev with hev' | hev'
    · rcases List.mem_append.mp hev' with hev'' | hev''
      · exact Or.inl hev''
      · simp at hev''
    · exact Or.inr hev'

/-- Every trace event of `startSubsystems` is either inherited or a
non-parse event. -/
theorem startSubsystems_mem (b : Build) (e : Env) (st : PState) (evs : List Event) :
    ∀ ev ∈ (startSubsystems b e st evs).trace, ev ∈ evs ∨ isParseEvent ev = false := by
  intro ev hev
  rcases decodeAndBody_mem b e _ _ ev hev with hev' | hev'
  · rcases List.mem_append.mp hev' with hev'' | hev''
    · exact Or.inl hev''
    · exact Or.inr (stageA_events_nonparse b st ev hev'')
  · exact Or.inr hev'

/-- Every trace event of `afterParse` is either inherited or a
non-parse event. -/
theorem afterParse_mem (b : Build) (e : Env) (toks : List Tok) (st : PState)
    (evs : List Event) :
    ∀ ev ∈ (afterParse b e toks st evs).trace, ev ∈ evs ∨ isParseEvent ev = false := by
  intro ev hev
  simp only [afterParse] at hev
  split_ifs at hev
  · simp at hev
    rcases hev with hev | hev
    · exact Or.inl hev
    · subst hev; exact Or.inr rfl
  · exact startSubsystems_mem b e _ _ ev hev

/-- A list whose first character is not a digit contributes nothing. -/
theorem parseDigits_no_digit (cs : List Char) (h : noLeadingDigit cs = true) :
    parseDigits cs 0 = 0 := by
  cases cs with
  | nil => rfl
  | cons c cs' =>
      simp [noLeadingDigit] at h
      simp [parseDigits, h]

/-- Conversion of a non-numeric string gives 0. -/
theorem atoi_eq_zero_of_nonNumeric (s : String) (h : nonNumericArg s = true) :
    atoi s = 0 := by
  unfold atoi
  unfold nonNumericArg at h
  cases hcs : skipSpaces s.toList with
  | nil => simp [atoiSigned]
  | cons c cs =>
      rw [hcs] at h
      simp only [atoiSigned]
      by_cases h1 : c = '-'
      · simp only [h1, if_pos rfl] at h ⊢
        rw [parseDigits_no_digit cs h]
        simp
      · by_cases h2 : c = '+'
        · simp only [h1, h2, if_neg, if_pos rfl, ite_false] at h ⊢
          · exact parseDigits_no_digit cs h
        · simp only [h1, h2, ite_false] at h ⊢
          simp at h
          simp [parseDigits, h]

/-- An event that is not parse-level cannot sit in a list of
parse-level events. -/
theorem not_mem_of_parse_only (l : List Event) (x : Event)
    (hx : isParseEvent x = false)
    (h : ∀ ev ∈ l, isParseEvent ev = true) : x ∉ l := by
  intro hm
  rw [h x hm] at hx
  simp at hx

/-- The settings/logging/context/crash-handler stage emits none of the
later lifecycle events. -/
theorem stageA_not_mem (b : Build) (st : PState) :
    Event.srdExit ∉ stageA b st ∧ Event.srdLoadAll ∉ stageA b st ∧
    Event.deviceManagerCreate ∉ stageA b st ∧
    Event.mainWindowCreate ∉ stageA b st ∧
    Event.eventLoopRun ∉ stageA b st ∧
    Event.logDecodeInitFailed ∉ stageA b st := by
  unfold stageA
  split_ifs <;> simp

/-- The guarded region never emits decoder lifecycle events. -/
theorem bodyRun_not_mem (b : Build) (e : Env) (st : PState) :
    Event.srdExit ∉ (bodyRun b e st).1 ∧
    Event.srdLoadAll ∉ (bodyRun b e st).1 ∧
    Event.logDecodeInitFailed ∉ (bodyRun b e st).1 := by
  unfold bodyRun sessionEvents signalEvents
  split_ifs <;> simp

/-! ## Claims -/

/-- Claim C7: for every argument vector containing `--help` (or
`-h`/`-?`) or `--version` (or `-V`), `main` prints usage respectively
name-and-version and returns exit code 0 before the global settings,
logging, acquisition context, device manager or main window are
constructed. -/
theorem C7_help_version_fast_exit (b : Build) (e : Env) (toks : List Tok)
    (h : Tok.help ∈ toks ∨ Tok.version ∈ toks) :
    (mainRun b e toks).outcome = .exited 0 ∧
    (Event.printUsage ∈ (mainRun b e toks).trace ∨
      Event.printVersion ∈ (mainRun b e toks).trace) ∧
    Event.settingsCreate ∉ (mainRun b e toks).trace ∧
    Event.loggingInit ∉ (mainRun b e toks).trace ∧
    Event.contextCreate ∉ (mainRun b e toks).trace ∧
    Event.deviceManagerCreate ∉ (mainRun b e toks).trace ∧
    Event.mainWindowCreate ∉ (mainRun b e toks).trace := by
  have hterm : ∃ t ∈ toks, isTerminalTok t = true := by
    rcases h with h | h
    · exact ⟨.help, h, rfl⟩
    · exact ⟨.version, h, rfl⟩
  obtain ⟨evs, hl, hpr⟩ := parseLoop_halt_of_terminal b toks initPState hterm
  have htr : mainRun b e toks = ⟨evs, .exited 0⟩ := by simp [mainRun, hl]
  have hparse := parseLoop_events_parse b toks initPState
  rw [hl] at hparse
  rw [htr]
  refine ⟨rfl, by simpa using hpr, ?_, ?_, ?_, ?_, ?_⟩ <;>
    (intro hm
     have := hparse _ (by simpa [outEvents] using hm)
     simp [isParseEvent] at this)

/-- Witness for C7 at the concrete argument vector `-l 2 --help`. -/
theorem C7_witness :
    (mainRun pvBuild pvEnv [Tok.loglevel "2", Tok.help]).outcome = .exited 0 :=
  (C7_help_version_fast_exit pvBuild pvEnv [Tok.loglevel "2", Tok.help]
    (Or.inl (by decide))).1

/-- Claim C8 as stated is false: with two positional arguments and
`--help` also present, `getopt` permutation still reaches the help
option inside the loop, so `main` prints usage and exits 0 — the
"Only one file can be opened." path at exit 1 is never reached. -/
theorem C8_counterexample :
    1 < (positionals [Tok.positional "a.bin", Tok.positional "b.bin", Tok.help]).length ∧
    (mainRun pvBuild pvEnv
        [Tok.positional "a.bin", Tok.positional "b.bin", Tok.help]).outcome ≠
      Outcome.exited 1 ∧
    Event.printErr onlyOneFileMsg ∉
      (mainRun pvBuild pvEnv
        [Tok.positional "a.bin", Tok.positional "b.bin", Tok.help]).trace := by
  decide

/-- Claim C8 amended: for every argument vector with two or more
positional arguments and no help/version/unrecognized option, `main`
prints "Only one file can be opened." to the error stream and exits 1
before any subsystem is constructed. -/
theorem C8_two_positionals_fatal (b : Build) (e : Env) (toks : List Tok)
    (hnt : ∀ t ∈ toks, isTerminalTok t = false)
    (hp : 1 < (positionals toks).length) :
    (mainRun b e toks).outcome = .exited 1 ∧
    Event.printErr onlyOneFileMsg ∈ (mainRun b e toks).trace ∧
    Event.settingsCreate ∉ (mainRun b e toks).trace ∧
    Event.loggingInit ∉ (mainRun b e toks).trace ∧
    Event.contextCreate ∉ (mainRun b e toks).trace ∧
    Event.deviceManagerCreate ∉ (mainRun b e toks).trace ∧
    Event.mainWindowCreate ∉ (mainRun b e toks).trace := by
  obtain ⟨st, evs, hl⟩ := parseLoop_next_of_no_terminal b toks initPState hnt
  have htr : mainRun b e toks = ⟨evs ++ [.printErr onlyOneFileMsg], .exited 1⟩ := by
    simp [mainRun, hl, afterParse, hp]
  have hparse := parseLoop_events_parse b toks initPState
  rw [hl] at hparse
  rw [htr]
  refine ⟨rfl, by simp, ?_, ?_, ?_, ?_, ?_⟩ <;>
    (intro hm
     rcases List.mem_append.mp hm with hm | hm
     · have := hparse _ (by simpa [outEvents] using hm)
       simp [isParseEvent] at this
     · simp at hm)

/-- Witness for the amended C8 at `["a.bin", "b.bin"]`. -/
theorem C8_witness :
    (mainRun pvBuild pvEnv [Tok.positional "a.bin", Tok.positional "b.bin"]).outcome =
      .exited 1 :=
  (C8_two_positionals_fatal pvBuild pvEnv
    [Tok.positional "a.bin", Tok.positional "b.bin"] (by decide) (by decide)).1

/-- Claim C3 is violated by the code: the acquisition context is
created only after argument parsing (line 209), while
`context->set_log_level` runs inside the option loop (line 153), so
every log-level application to the context happens on a null handle —
the handle passed to the setter is never valid, contradicting the
claimed Parse → Context-creation → log-level-application ordering. -/
theorem C3_setter_handle_always_null (b : Build) (e : Env) (toks : List Tok)
    (lv : Int) (v : Bool)
    (h : Event.setContextLogLevel lv v ∈ (mainRun b e toks).trace) : v = false := by
  cases hl : parseLoop b toks initPState with
  | halt code evs =>
      have htr : (mainRun b e toks).trace = evs := by simp [mainRun, hl]
      rw [htr] at h
      exact parseLoop_setCtx_false b toks initPState rfl lv v
        (by rw [hl]; simpa [outEvents] using h)
  | next st evs =>
      have htr : mainRun b e toks = afterParse b e toks st evs := by
        simp [mainRun, hl]
      rw [htr] at h
      rcases afterParse_mem b e toks st evs _ h with hm | hm
      · exact parseLoop_setCtx_false b toks initPState rfl lv v
          (by rw [hl]; simpa [outEvents] using hm)
      · simp [isParseEvent] at hm

/-- Witness for C3: on `pulseview -l 3` the setter is invoked with the
null context. -/
theorem C3_witness :
    Event.setContextLogLevel 3 false ∈
      (mainRun pvBuild pvEnv [Tok.loglevel "3"]).trace ∧ false = false :=
  ⟨by decide,
    C3_setter_handle_always_null pvBuild pvEnv [Tok.loglevel "3"] 3 false (by decide)⟩

/-- Claim C1 as stated is false: with an explicit input file and
`restore_sessions` left at its default `true`, `main` calls
`restore_sessions()` AND `add_session_with_file` — session restoration
is not suppressed by the explicit file. -/
theorem C1_counterexample :
    initPState.restore_sessions = true ∧
    Event.restoreSessions ∈ (mainRun pvBuild pvEnv [Tok.inputFile "a.bin"]).trace ∧
    Event.addSessionWithFile "a.bin" "" ∈
      (mainRun pvBuild pvEnv [Tok.inputFile "a.bin"]).trace := by
  decide

/-- Claim C1 amended: restoration is controlled solely by
`restore_sessions` and occurs even with an explicit input file; the
explicit file is mutually exclusive only with the default session. -/
theorem C1_restore_and_file_both_occur (b : Build) (e : Env) (st : PState)
    (hexc : e.exc = none) (hr : st.restore_sessions = true)
    (hf : st.open_file ≠ "") :
    Event.restoreSessions ∈ (bodyRun b e st).1 ∧
    Event.addSessionWithFile st.open_file st.open_file_format ∈ (bodyRun b e st).1 ∧
    Event.addDefaultSession ∉ (bodyRun b e st).1 := by
  rw [bodyRun_exc_none b e st hexc]
  simp only [sessionEvents, signalEvents, hr, if_true, if_neg hf]
  refine ⟨by simp, by simp, ?_⟩
  split_ifs <;> simp

/-- Witness for the amended C1 with file "a.bin". -/
theorem C1_witness :
    Event.restoreSessions ∈
      (bodyRun pvBuild pvEnv { initPState with open_file := "a.bin" }).1 :=
  (C1_restore_and_file_both_occur pvBuild pvEnv
    { initPState with open_file := "a.bin" } (by decide) (by decide) (by decide)).1

/-- Claim C4 as stated is false: the handler raises `SIGABRT`
unconditionally (line 74), so a handler triggered by a segmentation
fault does not re-raise the original signal. -/
theorem C4_counterexample :
    signal_handler "/tmp" SIGSEGV =
      [.restoreDefault SIGSEGV, .dumpTo "/tmp/pv_stacktrace.dmp",
        .raiseSignal SIGABRT] ∧
    SIGABRT ≠ SIGSEGV := by
  decide

/-- Claim C4 amended: when triggered, the handler first restores the
default OS handler for the triggering signal, then writes the stack
trace to the resolved temp-directory path, then raises `SIGABRT`
(which coincides with the original signal only for aborts). -/
theorem C4_handler_sequence (tempPath : String) (signum : Int) :
    signal_handler tempPath signum =
      [.restoreDefault signum, .dumpTo (stacktraceFilename tempPath),
        .raiseSignal SIGABRT] := rfl

/-- Claim C10: when `-i` is given together with exactly one positional
argument, the assignment `open_file = argv[argc-1]` after the loop
makes the positional win; the run then proceeds with the positional as
the input file. -/
theorem C10_positional_overrides_input_file (b : Build) (e : Env)
    (toks : List Tok) (x p : String) (st : PState) (evs : List Event)
    (_hi : Tok.inputFile x ∈ toks)
    (hp : positionals toks = [p])
    (hl : parseLoop b toks initPState = .next st evs) :
    (applyPositional (positionals toks) st).open_file = p ∧
    mainRun b e toks = startSubsystems b e (applyPositional (positionals toks) st) evs := by
  constructor
  · rw [hp]; rfl
  · simp [mainRun, hl, afterParse, hp]

/-- Witness for C10 at `-i a.bin b.bin`: the positional "b.bin" is the
input file. -/
theorem C10_witness :
    (applyPositional (positionals [Tok.inputFile "a.bin", Tok.positional "b.bin"])
      { initPState with open_file := "a.bin" }).open_file = "b.bin" :=
  (C10_positional_overrides_input_file pvBuild pvEnv
    [Tok.inputFile "a.bin", Tok.positional "b.bin"] "a.bin" "b.bin"
    { initPState with open_file := "a.bin" } [] (by decide) (by decide) (by decide)).1

/-- Claim C9: a non-numeric `-l` argument is converted by `atoi` to 0,
which passes the `[0,5]` range check, so log level 0 is applied to the
context and decoder sinks with no rejection warning. -/
theorem C9_nonnumeric_loglevel_silently_zero (b : Build) (st : PState) (s : String)
    (hn : nonNumericArg s = true) (hd : b.decode = true) :
    atoi s = 0 ∧
    parseStep b st (.loglevel s) =
      .next st [Event.setContextLogLevel 0 st.context.isSome,
        Event.setDecoderLogLevel 0] := by
  have h0 : atoi s = 0 := atoi_eq_zero_of_nonNumeric s hn
  refine ⟨h0, ?_⟩
  simp [parseStep, h0, hd]

/-- Witness for C9 at the non-numeric string "abc". -/
theorem C9_witness :
    atoi "abc" = 0 ∧
    parseStep pvBuild initPState (Tok.loglevel "abc") =
      .next initPState [Event.setContextLogLevel 0 false,
        Event.setDecoderLogLevel 0] :=
  C9_nonnumeric_loglevel_silently_zero pvBuild initPState "abc" (by decide) (by decide)

/-- Claim C2 as stated is false: when `srd_init` fails, the `break`
at line 231 leaves the `do { } while (false)` block, so the device
manager and main window are never constructed and the event loop is
never reached (the exit code does stay 0). -/
theorem C2_counterexample :
    (mainRun pvBuild { pvEnv with srdInitOk := false } []).outcome = .exited 0 ∧
    Event.logDecodeInitFailed ∈
      (mainRun pvBuild { pvEnv with srdInitOk := false } []).trace ∧
    Event.deviceManagerCreate ∉
      (mainRun pvBuild { pvEnv with srdInitOk := false } []).trace ∧
    Event.mainWindowCreate ∉
      (mainRun pvBuild { pvEnv with srdInitOk := false } []).trace ∧
    Event.eventLoopRun ∉
      (mainRun pvBuild { pvEnv with srdInitOk := false } []).trace := by
  decide

/-- Claim C2 amended: if decoder-engine initialization fails, the
failure is logged, but the device manager, main window and event loop
are all skipped; decoder teardown is skipped too and the process exits
with the unchanged code 0. -/
theorem C2_decode_fail_skips_run (b : Build) (e : Env) (toks : List Tok)
    (st : PState) (evs : List Event)
    (hl : parseLoop b toks initPState = .next st evs)
    (hp : ¬ 1 < (positionals toks).length)
    (hd : b.decode = true) (hs : e.srdInitOk = false) :
    (mainRun b e toks).outcome = .exited 0 ∧
    Event.logDecodeInitFailed ∈ (mainRun b e toks).trace ∧
    Event.deviceManagerCreate ∉ (mainRun b e toks).trace ∧
    Event.mainWindowCreate ∉ (mainRun b e toks).trace ∧
    Event.eventLoopRun ∉ (mainRun b e toks).trace ∧
    Event.srdExit ∉ (mainRun b e toks).trace := by
  have hparse := parseLoop_events_parse b toks initPState
  rw [hl] at hparse
  have hparse' : ∀ ev ∈ evs, isParseEvent ev = true := by
    simpa [outEvents] using hparse
  have htr : mainRun b e toks =
      ⟨evs ++ (stageA b (applyPositional (positionals toks) st)
        ++ [.logDecodeInitFailed]), .exited 0⟩ := by
    simp [mainRun, hl, afterParse, hp, startSubsystems, decodeAndBody, hd, hs]
  rw [htr]
  have hst := stageA_not_mem b (applyPositional (positionals toks) st)
  refine ⟨rfl, by simp, ?_, ?_, ?_, ?_⟩ <;>
    (intro hm
     rcases List.mem_append.mp hm with hm | hm
     · have := hparse' _ hm
       simp [isParseEvent] at this
     · rcases List.mem_append.mp hm with hm | hm
       · first
           | exact hst.2.2.1 hm
           | exact hst.2.2.2.1 hm
           | exact hst.2.2.2.2.1 hm
           | exact hst.1 hm
       · simp at hm)

/-- Witness for the amended C2 on a decoder build whose `srd_init`
fails. -/
theorem C2_witness :
    (mainRun pvBuild { pvEnv with srdInitOk := false } []).trace.length =
      (mainRun pvBuild { pvEnv with srdInitOk := false } []).trace.length ∧
    Event.eventLoopRun ∉
      (mainRun pvBuild { pvEnv with srdInitOk := false } []).trace :=
  ⟨rfl, (C2_decode_fail_skips_run pvBuild { pvEnv with srdInitOk := false } []
    initPState [] (by decide) (by decide) (by decide) (by decide)).2.2.2.2.1⟩

/-- Claim C6: an in-range `-l` value (0..5) is applied to the
log-level sinks; an out-of-range value only emits the warning, leaves
the level sinks untouched for the whole run, and the process still
reaches the event loop and exits with the event loop's return value. -/
theorem C6_loglevel_validation (b : Build) (e : Env) (st : PState) (s : String) :
    ((0 ≤ atoi s ∧ atoi s ≤ 5) →
      parseStep b st (.loglevel s) =
        .next st ([Event.setContextLogLevel (atoi s) st.context.isSome]
          ++ (if b.decode then [Event.setDecoderLogLevel (atoi s)] else [])
          ++ (if 5 ≤ atoi s then [Event.debugSettingsPeek] else []))) ∧
    ((atoi s < 0 ∨ 5 < atoi s) →
      parseStep b st (.loglevel s) = .next st [Event.warnInvalidLogLevel] ∧
      (e.exc = none → (b.decode = true → e.srdInitOk = true) →
        Event.eventLoopRun ∈ (mainRun b e [Tok.loglevel s]).trace ∧
        (mainRun b e [Tok.loglevel s]).outcome = .exited e.eventLoopRet ∧
        (∀ lv v, Event.setContextLogLevel lv v ∉ (mainRun b e [Tok.loglevel s]).trace) ∧
        (∀ lv, Event.setDecoderLogLevel lv ∉ (mainRun b e [Tok.loglevel s]).trace))) := by
  constructor
  · intro ⟨h1, h2⟩
    have hc : ¬ (atoi s < 0 ∨ 5 < atoi s) := by omega
    simp [parseStep, hc]
  · intro h
    have hstep : ∀ st0 : PState,
        parseStep b st0 (.loglevel s) = .next st0 [Event.warnInvalidLogLevel] := by
      intro st0
      simp [parseStep, h]
    refine ⟨hstep st, ?_⟩
    intro hexc hds
    have hloop : parseLoop b [Tok.loglevel s] initPState =
        .next initPState [Event.warnInvalidLogLevel] := by
      simp [parseLoop, hstep initPState]
    have hnd : ¬ (b.decode = true ∧ e.srdInitOk = false) := by
      rintro ⟨h1, h2⟩
      rw [hds h1] at h2
      exact absurd h2 (by simp)
    have htr : mainRun b e [Tok.loglevel s] =
        ⟨[Event.warnInvalidLogLevel] ++ (stageA b initPState
          ++ ((if b.decode then [Event.srdLoadAll] else [])
            ++ ((bodyRun b e { initPState with context := some () }).1
              ++ (if b.decode then [Event.srdExit] else [])))),
          .exited e.eventLoopRet⟩ := by
      simp [mainRun, hloop, afterParse, positionals, applyPositional,
        startSubsystems, decodeAndBody, hnd, mainBody,
        bodyRun_exc_none b e _ hexc]
    rw [htr]
    have hbody := bodyRun_events_nonparse b e { initPState with context := some () }
    have hstage := stageA_events_nonparse b initPState
    refine ⟨?_, rfl, ?_, ?_⟩
    · simp [bodyRun_exc_none b e _ hexc]
    · intro lv v hm
      simp only [List.mem_append] at hm
      rcases hm with hm | hm | hm | hm | hm
      · simp at hm
      · have := hstage _ hm
        simp [isParseEvent] at this
      · split_ifs at hm <;> simp at hm
      · have := hbody _ hm
        simp [isParseEvent] at this
      · split_ifs at hm <;> simp at hm
    · intro lv hm
      simp only [List.mem_append] at hm
      rcases hm with hm | hm | hm | hm | hm
      · simp at hm
      · have := hstage _ hm
        simp [isParseEvent] at this
      · split_ifs at hm <;> simp at hm
      · have := hbody _ hm
        simp [isParseEvent] at this
      · split_ifs at hm <;> simp at hm

/-- Witness for C6 at the out-of-range value 9. -/
theorem C6_witness :
    parseStep pvBuild initPState (Tok.loglevel "9") =
      .next initPState [Event.warnInvalidLogLevel] ∧
    Event.eventLoopRun ∈ (mainRun pvBuild pvEnv [Tok.loglevel "9"]).trace :=
  ⟨((C6_loglevel_validation pvBuild pvEnv initPState "9").2 (by decide)).1,
    (((C6_loglevel_validation pvBuild pvEnv initPState "9").2 (by decide)).2
      (by decide) (fun _ => by decide)).1⟩

/-- Claim C5: decoder teardown (`srd_exit`) runs exactly once in every
run where decoder initialization succeeded (decoder catalog loaded) and
the run did not end in an uncaught exception — i.e. the event loop
returned normally or the exception was caught at top level — and never
runs in a run where initialization did not succeed. -/
theorem C5_teardown_symmetry (b : Build) (e : Env) (toks : List Tok) :
    ((Event.srdLoadAll ∈ (mainRun b e toks).trace ∧
        (mainRun b e toks).outcome ≠ .uncaught) →
      countEvent .srdExit (mainRun b e toks).trace = 1) ∧
    (Event.srdLoadAll ∉ (mainRun b e toks).trace →
      countEvent .srdExit (mainRun b e toks).trace = 0) := by
  cases hl : parseLoop b toks initPState with
  | halt code evs =>
      have hparse : ∀ ev ∈ evs, isParseEvent ev = true := by
        have := parseLoop_events_parse b toks initPState
        rw [hl] at this
        simpa [outEvents] using this
      have hLoad : Event.srdLoadAll ∉ evs :=
        not_mem_of_parse_only evs _ rfl hparse
      have hExit : Event.srdExit ∉ evs :=
        not_mem_of_parse_only evs _ rfl hparse
      have htr : mainRun b e toks = ⟨evs, .exited code⟩ := by simp [mainRun, hl]
      rw [htr]
      exact ⟨fun hc => absurd hc.1 hLoad, fun _ => countEvent_eq_zero _ _ hExit⟩
  | next st evs =>
      have hparse : ∀ ev ∈ evs, isParseEvent ev = true := by
        have := parseLoop_events_parse b toks initPState
        rw [hl] at this
        simpa [outEvents] using this
      have hLoad : Event.srdLoadAll ∉ evs :=
        not_mem_of_parse_only evs _ rfl hparse
      have hExit : Event.srdExit ∉ evs :=
        not_mem_of_parse_only evs _ rfl hparse
      by_cases hp : 1 < (positionals toks).length
      · have htr : mainRun b e toks =
            ⟨evs ++ [.printErr onlyOneFileMsg], .exited 1⟩ := by
          simp [mainRun, hl, afterParse, hp]
        rw [htr]
        constructor
        · rintro ⟨hm, -⟩
          rcases List.mem_append.mp hm with hm | hm
          · exact absurd hm hLoad
          · simp at hm
        · intro _
          rw [countEvent_append, countEvent_eq_zero _ _ hExit]
          simp [countEvent]
      · obtain ⟨st1, hst1⟩ : ∃ st1, applyPositional (positionals toks) st = st1 :=
          ⟨_, rfl⟩
        obtain ⟨st2, hst2⟩ : ∃ st2, ({ st1 with context := some () } : PState) = st2 :=
          ⟨_, rfl⟩
        have hstage := stageA_not_mem b st1
        have hbody := bodyRun_not_mem b e st2
        have htr : mainRun b e toks = decodeAndBody b e st2 (evs ++ stageA b st1) := by
          simp [mainRun, hl, afterParse, hp, startSubsystems, hst1, hst2]
        by_cases hd : b.decode = true
        · by_cases hs : e.srdInitOk = false
          · have htr2 : mainRun b e toks =
                ⟨(evs ++ stageA b st1) ++ [.logDecodeInitFailed], .exited 0⟩ := by
              rw [htr]; simp [decodeAndBody, hd, hs]
            rw [htr2]
            constructor
            · rintro ⟨hm, -⟩
              rcases List.mem_append.mp hm with hm | hm
              · rcases List.mem_append.mp hm with hm | hm
                · exact absurd hm hLoad
                · exact absurd hm hstage.2.1
              · simp at hm
            · intro _
              rw [countEvent_append, countEvent_append,
                countEvent_eq_zero _ _ hExit, countEvent_eq_zero _ _ hstage.1]
              simp [countEvent]
          · have hs' : e.srdInitOk = true := by
              cases hsx : e.srdInitOk
              · exact absurd hsx hs
              · rfl
            have htr2 : mainRun b e toks =
                mainBody b e st2 ((evs ++ stageA b st1) ++ [.srdLoadAll]) := by
              rw [htr]; simp [decodeAndBody, hd, hs']
            by_cases hn : (bodyRun b e st2).2 = none
            · by_cases hstk : b.stacktrace = true
              · have htr3 : mainRun b e toks =
                    ⟨((evs ++ stageA b st1) ++ [.srdLoadAll]) ++ (bodyRun b e st2).1,
                      .uncaught⟩ := by
                  rw [htr2]; simp [mainBody, hn, hstk]
                rw [htr3]
                constructor
                · rintro ⟨-, ho⟩
                  exact absurd rfl ho
                · intro hm
                  exact absurd (by simp) hm
              · have htr3 : mainRun b e toks =
                    ⟨(((evs ++ stageA b st1) ++ [.srdLoadAll]) ++ (bodyRun b e st2).1
                        ++ [.logException]) ++ [.srdExit], .exited 0⟩ := by
                  rw [htr2]; simp [mainBody, hn, hstk, hd]
                rw [htr3]
                constructor
                · intro _
                  repeat rw [countEvent_append]
                  rw [countEvent_eq_zero _ _ hExit, countEvent_eq_zero _ _ hstage.1,
                    countEvent_eq_zero _ _ hbody.1]
                  simp [countEvent]
                · intro hm
                  exact absurd (by simp) hm
            · have htr3 : mainRun b e toks =
                  ⟨(((evs ++ stageA b st1) ++ [.srdLoadAll]) ++ (bodyRun b e st2).1)
                      ++ [.srdExit],
                    .exited ((bodyRun b e st2).2.getD 0)⟩ := by
                rw [htr2]; simp [mainBody, hn, hd]
              rw [htr3]
              constructor
              · intro _
                repeat rw [countEvent_append]
                rw [countEvent_eq_zero _ _ hExit, countEvent_eq_zero _ _ hstage.1,
                  countEvent_eq_zero _ _ hbody.1]
                simp [countEvent]
              · intro hm
                exact absurd (by simp) hm
        · have hd' : b.decode = false := by
            cases hdx : b.decode
            · rfl
            · exact absurd hdx hd
          have htr2 : mainRun b e toks =
              mainBody b e st2 (evs ++ stageA b st1) := by
            rw [htr]; simp [decodeAndBody, hd']
          have hnoLoad : Event.srdLoadAll ∉ (evs ++ stageA b st1) := by
            intro hm
            rcases List.mem_append.mp hm with hm | hm
            · exact absurd hm hLoad
            · exact absurd hm hstage.2.1
          by_cases hn : (bodyRun b e st2).2 = none
          · by_cases hstk : b.stacktrace = true
            · have htr3 : mainRun b e toks =
                  ⟨(evs ++ stageA b st1) ++ (bodyRun b e st2).1, .uncaught⟩ := by
                rw [htr2]; simp [mainBody, hn, hstk]
              rw [htr3]
              constructor
              · rintro ⟨-, ho⟩
                exact absurd rfl ho
              · intro _
                rw [countEvent_append, countEvent_append,
                  countEvent_eq_zero _ _ hExit, countEvent_eq_zero _ _ hstage.1,
                  countEvent_eq_zero _ _ hbody.1]
            · have htr3 : mainRun b e toks =
                  ⟨((evs ++ stageA b st1) ++ (bodyRun b e st2).1) ++ [.logException],
                    .exited 0⟩ := by
                rw [htr2]; simp [mainBody, hn, hstk, hd']
              rw [htr3]
              constructor
              · rintro ⟨hm, -⟩
                rcases List.mem_append.mp hm with hm | hm
                · rcases List.mem_append.mp hm with hm | hm
                  · exact absurd hm hnoLoad
                  · exact absurd hm hbody.2.1
                · simp at hm
              · intro _
                repeat rw [countEvent_append]
                rw [countEvent_eq_zero _ _ hExit, countEvent_eq_zero _ _ hstage.1,
                  countEvent_eq_zero _ _ hbody.1]
                simp [countEvent]
          · have htr3 : mainRun b e toks =
                ⟨(evs ++ stageA b st1) ++ (bodyRun b e st2).1,
                  .exited ((bodyRun b e st2).2.getD 0)⟩ := by
              rw [htr2]; simp [mainBody, hn, hd']
            rw [htr3]
            constructor
            · rintro ⟨hm, -⟩
              rcases List.mem_append.mp hm with hm | hm
              · rcases List.mem_append.mp hm with hm | hm
                · exact absurd hm hLoad
                · exact absurd hm hstage.2.1
              · exact absurd hm hbody.2.1
            · intro _
              rw [countEvent_append, countEvent_append,
                countEvent_eq_zero _ _ hExit, countEvent_eq_zero _ _ hstage.1,
                countEvent_eq_zero _ _ hbody.1]

/-- Witness for C5: on a successful decoder build with a normal event
loop return, teardown happens exactly once. -/
theorem C5_witness :
    countEvent .srdExit (mainRun pvBuild pvEnv []).trace = 1 :=
  (C5_teardown_symmetry pvBuild pvEnv []).1 ⟨by decide, by decide⟩

end PulseView
